import Mathlib

/-
Verification of the security-gatekeeping and session-lifecycle core of the
codebox-ai repository.  The Python sources are shallowly embedded as Lean
definitions: pure string processing is translated function by function,
the filesystem and the Jupyter kernel backend are abstracted as explicit
oracle parameters, and Python exceptions are represented as `Option` /
`Except` values.  Theorems at the end settle the frozen claims.
-/

/- ===== Python-style string helpers (str.strip, str.split, substrings) ===== -/

/-- Python whitespace characters (the set used by `str.strip` and `str.split`). -/
def isPyWs (c : Char) : Bool :=
  c = ' ' || c = '\t' || c = '\n' || c = '\r' || c = '\x0b' || c = '\x0c'

def dropLeadingWs : List Char → List Char
  | [] => []
  | c :: cs => if isPyWs c then dropLeadingWs cs else c :: cs

/-- Model of Python `str.strip()` on a character list. -/
def pyStripL (s : List Char) : List Char :=
  (dropLeadingWs (dropLeadingWs s.reverse).reverse)

/-- Model of Python `str.strip()`. -/
def pyStrip (s : String) : String := ⟨pyStripL s.data⟩

/-- Model of Python `str.split()` (split on whitespace runs, dropping empties). -/
def splitWsAux : List Char → List Char → List (List Char)
  | [], acc => if acc.isEmpty then [] else [acc.reverse]
  | c :: cs, acc =>
    if isPyWs c then
      if acc.isEmpty then splitWsAux cs [] else acc.reverse :: splitWsAux cs []
    else splitWsAux cs (c :: acc)

def splitWsStrs (l : List Char) : List String :=
  (splitWsAux l []).map (fun cs => (⟨cs⟩ : String))

def infixAux (pat : List Char) : List Char → Bool
  | [] => pat.isEmpty
  | c :: rest => pat.isPrefixOf (c :: rest) || infixAux pat rest

/-- Model of the Python `in` operator on strings (substring containment). -/
def strContains (s pat : String) : Bool := infixAux pat.data s.data

/-- Model of Python `str.startswith` (kernel-reducible, unlike
`String.startsWith`). -/
def strStartsWith (s pre : String) : Bool := pre.data.isPrefixOf s.data

def strDrop (s : String) (n : Nat) : String := ⟨s.data.drop n⟩

/-- Model of Python `str.lower()` (ASCII case folding, as all names in the
validator's tables are ASCII). -/
def strLower (s : String) : String := ⟨s.data.map Char.toLower⟩

/-- Split on a non-empty separator pattern, non-overlapping left-to-right,
keeping empty parts — the semantics of Python `str.split(sep)`. Fuel is the
input length, which the scan never exhausts. -/
def splitSeqAux (pat : List Char) : Nat → List Char → List Char → List (List Char)
  | 0, acc, l => [acc.reverse ++ l]
  | _ + 1, acc, [] => [acc.reverse]
  | fuel + 1, acc, c :: rest =>
    if pat.isPrefixOf (c :: rest) then
      acc.reverse :: splitSeqAux pat fuel [] ((c :: rest).drop pat.length)
    else splitSeqAux pat fuel (c :: acc) rest

/-- Model of Python `str.split(sep)` for a non-empty separator. -/
def strSplitOn (s pat : String) : List String :=
  (splitSeqAux pat.data (s.data.length + 1) [] s.data).map (fun cs => (⟨cs⟩ : String))

/-- Model of Python `"; ".join` / `"".join` style joining. -/
def joinSep (sep : String) : List String → String
  | [] => ""
  | [x] => x
  | x :: xs => x ++ sep ++ joinSep sep xs

/- ===== Model of packaging.version.Version (release-only versions) ===== -/

/-- Parse a run of decimal digits; `none` on empty input or non-digit. -/
def digitsToNat? (cs : List Char) : Option Nat :=
  if cs.isEmpty then none
  else cs.foldlM (fun acc c => if c.isDigit then some (acc * 10 + (c.toNat - 48)) else none) 0

/-- Model of `packaging.version.Version` restricted to plain dotted numeric
releases (the only shape that occurs in this repository's rules and claims);
epochs, pre/post/dev segments and letters are treated as parse failures. -/
def parseVer (s : String) : Option (List Nat) :=
  (strSplitOn (pyStrip s) ".").mapM (fun p => digitsToNat? p.data)

def isZeros : List Nat → Bool
  | [] => true
  | y :: ys => y = 0 && isZeros ys

/-- PEP 440 release comparison: compare componentwise after zero-padding the
shorter release (so `9.0 == 9.0.0`). -/
def verCmp : List Nat → List Nat → Ordering
  | [], b => if isZeros b then Ordering.eq else Ordering.lt
  | x :: xs, [] => if x = 0 then verCmp xs [] else Ordering.gt
  | x :: xs, y :: ys =>
    if x < y then Ordering.lt else if y < x then Ordering.gt else verCmp xs ys

def verLt (a b : List Nat) : Bool := verCmp a b = Ordering.lt
def verGe (a b : List Nat) : Bool := !(verLt a b)

/-- Render a release the way `str(Version)` does for plain releases. -/
def verToString (v : List Nat) : String := joinSep "." (v.map toString)

/- ===== Model of packaging.specifiers ===== -/

structure Specifier where
  op : String
  ver : List Nat
deriving DecidableEq, Repr

/-- Parse one specifier such as `>=9.0.0` (the operators produced by the
validator's token splitting plus the comma-separated forms it feeds to
`SpecifierSet`). Unsupported operators such as `~=` are parse failures. -/
def parseSpecifier (s : String) : Option Specifier :=
  let t := pyStrip s
  if strStartsWith t ">=" then (parseVer (strDrop t 2)).map (fun v => ⟨">=", v⟩)
  else if strStartsWith t "<=" then (parseVer (strDrop t 2)).map (fun v => ⟨"<=", v⟩)
  else if strStartsWith t "==" then (parseVer (strDrop t 2)).map (fun v => ⟨"==", v⟩)
  else if strStartsWith t "!=" then (parseVer (strDrop t 2)).map (fun v => ⟨"!=", v⟩)
  else if strStartsWith t ">" then (parseVer (strDrop t 1)).map (fun v => ⟨">", v⟩)
  else if strStartsWith t "<" then (parseVer (strDrop t 1)).map (fun v => ⟨"<", v⟩)
  else none

/-- Model of `SpecifierSet(s)`: comma-separated specifiers, blank parts
skipped; any invalid part raises (here: `none`). -/
def parseSpecSet (s : String) : Option (List Specifier) :=
  (((strSplitOn s ",").map pyStrip).filter (fun p => p ≠ "")).mapM parseSpecifier

/-- Does version `v` satisfy one specifier (PEP 440 semantics on plain
releases)? -/
def specContains (sp : Specifier) (v : List Nat) : Bool :=
  if sp.op = ">=" then verCmp v sp.ver ≠ Ordering.lt
  else if sp.op = "<=" then verCmp v sp.ver ≠ Ordering.gt
  else if sp.op = "==" then verCmp v sp.ver = Ordering.eq
  else if sp.op = "!=" then verCmp v sp.ver ≠ Ordering.eq
  else if sp.op = ">" then verCmp v sp.ver = Ordering.gt
  else verCmp v sp.ver = Ordering.lt

/-- `SpecifierSet.contains`: every member specifier must be satisfied. -/
def specSetContains (sps : List Specifier) (v : List Nat) : Bool :=
  sps.all (fun sp => specContains sp v)

/- ===== codeboxai/security/validators/code.py : data tables ===== -/

/-- `blocked_packages` from code.py (module-level constant). -/
def blocked_packages : List String :=
  ["crypto", "pycrypto", "cryptography", "paramiko", "fabric", "ansible",
   "salt", "puppet", "psutil", "pywin32", "winreg", "win32com", "win32api",
   "pyinstaller", "py2exe", "cx_Freeze", "distutils", "pycdlib", "django",
   "flask", "fastapi", "tornado", "twisted", "socketserver", "ftplib",
   "smtplib", "sh", "shellingham", "pexpect", "pyshell", "ctypes", "cffi",
   "mmap", "code", "pdb", "rpdb", "ipdb", "pyrasite", "docker", "kubernetes",
   "boto3", "azure", "google-cloud"]

/-- `forbidden_builtins` from `CodeValidator.__init__`. -/
def forbidden_builtins : List String :=
  ["eval", "exec", "globals", "locals", "compile", "__import__"]

/-- `forbidden_modules` from `CodeValidator.__init__`. -/
def forbidden_modules : List String :=
  ["sys", "subprocess", "multiprocessing", "socket", "pickle", "marshal",
   "shelve", "pty", "pdb"]

/-- `allowed_shell_commands` from `CodeValidator.__init__`. -/
def allowed_shell_commands : List String :=
  ["pip", "conda", "jupyter", "python", "pytest", "black", "flake8", "mypy",
   "curl", "wget"]

/-- `allowed_versions` of the `package_installation` rule, with each
minimum-version string `>=X` pre-parsed into (key, raw string, release). -/
def allowed_versions : List (String × String × List Nat) :=
  [("pillow", "9.0.0", [9, 0, 0]),
   ("numpy", "1.22.2", [1, 22, 2]),
   ("requests", "2.31.0", [2, 31, 0]),
   ("pandas", "1.4.0", [1, 4, 0]),
   ("tensorflow", "2.11.1", [2, 11, 1]),
   ("torch", "1.13.1", [1, 13, 1]),
   ("urllib3", "1.26.5", [1, 26, 5]),
   ("scipy", "1.10.0", [1, 10, 0])]

def lookupMinVersion (name : String) : Option (String × List Nat) :=
  (allowed_versions.find? (fun p => p.1 = name)).map (·.2)

/- ===== _validate_package_installation ===== -/

/-- Model of `re.split(r"(>=|<=|==|>|<|!=)", package)`: find the leftmost
delimiter occurrence (two-character alternatives tried first at each
position, in the pattern's order). Returns the text before it and the
remainder starting at the delimiter, which is exactly
`parts[0]` and `"".join(parts[1:])` of the Python call. -/
def findDelimAux : List Char → List Char → Option (List Char × List Char)
  | _, [] => none
  | acc, '>' :: '=' :: rest => some (acc.reverse, '>' :: '=' :: rest)
  | acc, '>' :: rest => some (acc.reverse, '>' :: rest)
  | acc, '<' :: '=' :: rest => some (acc.reverse, '<' :: '=' :: rest)
  | acc, '<' :: rest => some (acc.reverse, '<' :: rest)
  | acc, '=' :: '=' :: rest => some (acc.reverse, '=' :: '=' :: rest)
  | acc, '!' :: '=' :: rest => some (acc.reverse, '!' :: '=' :: rest)
  | acc, c :: rest => findDelimAux (c :: acc) rest

/-- Split a package token into name and optional version specifier
(`parts[0]` / `"".join(parts[1:])` in the source). -/
def splitSpec (package : String) : String × Option String :=
  match findDelimAux [] package.data with
  | none => (package, none)
  | some (pre, suf) => (⟨pre⟩, some ⟨suf⟩)

/-- The body of the per-package loop of `_validate_package_installation`
(code.py lines 253-303).  The rule's `allowed_packages` set is empty in
`_initialize_rules`, so the allowlist branch is statically skipped. -/
def checkPackageToken (package : String) : Bool × Option String :=
  let (packageName, versionSpec) := splitSpec package
  if blocked_packages.contains (strLower packageName) then
    (false, some s!"Package {packageName} is blocked for security reasons")
  else
    match versionSpec with
    | none => (true, none)
    | some vs =>
      match lookupMinVersion packageName with
      | none => (true, none)
      | some (minStr, minVer) =>
        if strContains vs "==" then
          match (strSplitOn vs "==").get? 1 with
          | none => (true, none)
          | some verStr =>
            match parseVer verStr with
            | none =>
              (false, some s!"Invalid version specification for {packageName}: invalid version")
            | some ver =>
              if verGe ver minVer then (true, none)
              else
                (false, some s!"Version {verToString ver} of {packageName} is not allowed. Must satisfy: >={minStr}")
        else
          match parseSpecSet vs with
          | none =>
            (false, some s!"Invalid version specification for {packageName}: invalid specifier")
          | some requested =>
            let testVer := [minVer.headD 0, (minVer.drop 1).headD 0]
            if verLt testVer minVer && specSetContains requested testVer then
              (false, some s!"Version {vs} of {packageName} would allow versions below minimum required ({minStr}). Must satisfy: >={minStr}")
            else (true, none)

/- ===== the pip/conda install-line scanner ===== -/

/-- Characters matched by the capture class `[-\w\d\s,\.=<>]`. -/
def classCharB (c : Char) : Bool :=
  c.isAlpha || c.isDigit || c = '_' || c = '-' || c = ',' || c = '.' ||
  c = '=' || c = '<' || c = '>' || isPyWs c

/-- Match a literal character sequence, returning the rest. -/
def dropLit : List Char → List Char → Option (List Char)
  | [], rest => some rest
  | _ :: _, [] => none
  | c :: cs, r :: rest => if r = c then dropLit cs rest else none

def dropWs : List Char → List Char
  | [] => []
  | c :: rest => if isPyWs c then dropWs rest else c :: rest

/-- Match `\s+` (at least one whitespace character, maximal run). -/
def ws1 : List Char → Option (List Char)
  | [] => none
  | c :: rest => if isPyWs c then some (dropWs rest) else none

/-- Match `\s+install\s+([-\w\d\s,\.=<>]+)`, returning the captured group
and the remainder.  The regex could cede trailing whitespace from `\s+` to
the capture by backtracking; that variant captures only whitespace and
yields no package tokens, so treating it as a non-match validates the same
package list. -/
def matchInstallTail (l : List Char) : Option (List Char × List Char) := do
  let l1 ← ws1 l
  let l2 ← dropLit "install".data l1
  let l3 ← ws1 l2
  let cap := l3.takeWhile classCharB
  if cap.isEmpty then none
  else some (cap, l3.drop cap.length)

/-- Match `(?:python\s+-m\s+)?pip(?:3)?\s+install\s+(...)` after a `!`. -/
def matchPipAfterBang (l : List Char) : Option (List Char × List Char) :=
  let viaPythonM : Option (List Char × List Char) := do
    let a1 ← dropLit "python".data l
    let a2 ← ws1 a1
    let a3 ← dropLit "-m".data a2
    let a4 ← ws1 a3
    let a5 ← dropLit "pip".data a4
    let a6 := match a5 with | '3' :: r => r | _ => a5
    matchInstallTail a6
  match viaPythonM with
  | some r => some r
  | none =>
    match dropLit "pip".data l with
    | none => none
    | some l1 =>
      let l2 := match l1 with | '3' :: r => r | _ => l1
      matchInstallTail l2

/-- Match `conda\s+install\s+(...)` after a `!`. -/
def matchCondaAfterBang (l : List Char) : Option (List Char × List Char) := do
  let a ← dropLit "conda".data l
  matchInstallTail a

/-- Non-overlapping scan of a whole code string for one install pattern,
as `re.finditer` does (matches may start anywhere, not just at line
starts); fuel is the string length, which bounds the scan. -/
def scanInstallAux (matchAt : List Char → Option (List Char × List Char)) :
    Nat → List Char → List (List Char)
  | 0, _ => []
  | _ + 1, [] => []
  | fuel + 1, '!' :: rest =>
    match matchAt rest with
    | some (cap, rem) => cap :: scanInstallAux matchAt fuel rem
    | none => scanInstallAux matchAt fuel rest
  | fuel + 1, _ :: rest => scanInstallAux matchAt fuel rest

def scanPip (code : String) : List (List Char) :=
  scanInstallAux matchPipAfterBang (code.data.length + 1) code.data

def scanConda (code : String) : List (List Char) :=
  scanInstallAux matchCondaAfterBang (code.data.length + 1) code.data

def runPackageChecks : List String → Bool × Option String
  | [] => (true, none)
  | p :: ps =>
    match checkPackageToken p with
    | (true, _) => runPackageChecks ps
    | r => r

/-- Model of `CodeValidator._validate_package_installation` (code.py
lines 235-305): scan for pip/conda install invocations, split the captured
package list on whitespace, and validate each token in order. -/
def _validate_package_installation (code : String) : Bool × Option String :=
  let caps := scanPip code ++ scanConda code
  let packages := (caps.map splitWsStrs).flatten
  runPackageChecks packages


/- ===== _validate_jupyter_commands ===== -/

/-- The loop body of `_validate_jupyter_commands`: `line[1:].strip().split()[0]`
raises `IndexError` on a line whose text after `!` is blank — modelled as
`none`; otherwise check the first token against the allow-list. -/
def jupyterLinesCheck : List String → Option (Bool × Option String)
  | [] => some (true, none)
  | line :: rest =>
    match splitWsStrs (pyStripL (line.data.drop 1)) with
    | [] => none
    | command :: _ =>
      if allowed_shell_commands.contains command then jupyterLinesCheck rest
      else some (false, some s!"Shell command not allowed: {command}")

/-- Model of `CodeValidator._validate_jupyter_commands` (code.py lines
307-316).  `none` models the uncaught `IndexError` raised on a shell line
with no command token. -/
def _validate_jupyter_commands (code : String) : Option (Bool × Option String) :=
  let shellLines :=
    ((strSplitOn code "\n").map pyStrip).filter (fun l => strStartsWith l "!")
  jupyterLinesCheck shellLines

/- ===== _validate_patterns ===== -/

/-- Python `\w` word characters (ASCII fragment). -/
def wordCharB (c : Char) : Bool := c.isAlpha || c.isDigit || c = '_'

/-- Does `\w+__` match a prefix of the list (at least one word character,
then two underscores)? Existential over the length of `\w+`. -/
def wPlusUnderUnder : List Char → Bool
  | '_' :: '_' :: _ => true
  | c :: rest => wordCharB c && wPlusUnderUnder rest
  | [] => false

/-- Does `__\w+__` match starting exactly here? -/
def matchDunderAt : List Char → Bool
  | '_' :: '_' :: rest => wPlusUnderUnder rest
  | _ => false

/-- Model of `re.search(r"(?<![\!%])__\w+__", code)`: a match at some
position whose preceding character (if any) is not `!` or `%`. -/
def searchDunderAux : Option Char → List Char → Bool
  | _, [] => false
  | prev, c :: rest =>
    ((prev ≠ some '!' && prev ≠ some '%') && matchDunderAt (c :: rest))
      || searchDunderAux (some c) rest

def hasDunderPattern (s : String) : Bool := searchDunderAux none s.data

/-- Model of `CodeValidator._validate_patterns` (code.py lines 342-347);
the single forbidden pattern is the dunder regex above and the message
carries its source text. -/
def _validate_patterns (code : String) : Bool × Option String :=
  if hasDunderPattern code then
    (false, some "Forbidden pattern found: (?<![\\!%])__\\w+__")
  else (true, none)

/- ===== Python AST model (for the two `ast_rule` validators) ===== -/

/-- Expressions of the embedded Python AST fragment. -/
inductive PyExpr where
  | name : String → PyExpr
  | call : PyExpr → List PyExpr → PyExpr
  | attr : PyExpr → String → PyExpr
  | constE : PyExpr

/-- Statements of the embedded Python AST fragment. `imp` is `import a.b, c`
(each element a dotted module path); `impFrom` is `from m import ...` whose
module may be `None` for relative imports. -/
inductive PyStmt where
  | imp : List String → PyStmt
  | impFrom : Option String → PyStmt
  | assign : String → PyExpr → PyStmt
  | exprStmt : PyExpr → PyStmt

/-- A parsed module: `ast.parse` output, flattened to its statements. -/
abbrev PyModule := List PyStmt

mutual

/-- First forbidden direct call found by walking an expression: a `Call`
node whose function position is a bare `Name` in `forbidden_builtins`
(`_validate_builtins` looks only at this node shape; the traversal order
differs from `ast.walk` only in which of several violations is reported). -/
def exprForbiddenCall : PyExpr → Option String
  | PyExpr.name _ => none
  | PyExpr.constE => none
  | PyExpr.attr v _ => exprForbiddenCall v
  | PyExpr.call f args =>
    (match f with
     | PyExpr.name id => if forbidden_builtins.contains id then some id else none
     | _ => none).orElse
      (fun _ => (exprForbiddenCall f).orElse (fun _ => exprsForbiddenCall args))

/-- First forbidden direct call in a list of expressions. -/
def exprsForbiddenCall : List PyExpr → Option String
  | [] => none
  | e :: es => (exprForbiddenCall e).orElse (fun _ => exprsForbiddenCall es)

end

def stmtForbiddenCall : PyStmt → Option String
  | PyStmt.assign _ e => exprForbiddenCall e
  | PyStmt.exprStmt e => exprForbiddenCall e
  | _ => none

def moduleForbiddenCall (m : PyModule) : Option String :=
  m.findSome? stmtForbiddenCall

/-- Model of `CodeValidator._validate_builtins` on a parsed tree. -/
def checkBuiltinsM (m : PyModule) : Bool × Option String :=
  match moduleForbiddenCall m with
  | some id => (false, some ("Forbidden function call: " ++ id))
  | none => (true, none)

/-- `name.split(".")[0]`: the characters before the first dot. -/
def rootMod (n : String) : String := ⟨n.data.takeWhile (fun c => c ≠ '.')⟩

/-- First forbidden import in a statement, with the full dotted name the
source puts in the message (`name.name` / `node.module`). -/
def stmtForbiddenImport : PyStmt → Option String
  | PyStmt.imp names =>
    names.findSome? (fun n =>
      if forbidden_modules.contains (rootMod n) then some n else none)
  | PyStmt.impFrom (some mo) =>
    if forbidden_modules.contains (rootMod mo) then some mo else none
  | _ => none

def moduleForbiddenImport (m : PyModule) : Option String :=
  m.findSome? stmtForbiddenImport

/-- Model of `CodeValidator._validate_imports` on a parsed tree. -/
def checkImportsM (m : PyModule) : Bool × Option String :=
  match moduleForbiddenImport m with
  | some n => (false, some ("Forbidden import: " ++ n))
  | none => (true, none)

/-- Model of the `ast_rule` decorator: `ast.parse` is an oracle parameter
(`none` models a `SyntaxError`, whose message text is environment-specific
and irrelevant to the claims). -/
def astRule (check : PyModule → Bool × Option String)
    (parse : String → Option PyModule) (code : String) : Bool × Option String :=
  match parse code with
  | some m => check m
  | none => (false, some "Invalid Python syntax: error")

/- ===== validate_code ===== -/

/-- One line is "Jupyter" when its stripped form matches one of
`jupyter_patterns` — i.e. starts with `!` or `%` (the `%%` pattern is
subsumed by the `%` one). -/
def isJupyterLine (line : String) : Bool :=
  strStartsWith (pyStrip line) "!" || strStartsWith (pyStrip line) "%"

/-- The plain-Python residue of a submission: non-Jupyter lines re-joined
with newlines (`"\n".join(python_code)` in the source). -/
def pyPartOf (code : String) : String :=
  joinSep "\n" ((strSplitOn code "\n").filter (fun l => !isJupyterLine l))

/-- `if not is_valid and message: failures.append(message)` — the message
is appended only when the rule failed and the message is truthy. -/
def addFailure (acc : List String) : Bool × Option String → List String
  | (false, some m) => if m = "" then acc else acc ++ [m]
  | _ => acc

/-- Model of `CodeValidator.validate_code` (code.py lines 349-387) with the
default rule configuration (all five rules enabled, in registration order).
`none` models the uncaught `IndexError` escaping from the jupyter-commands
rule; otherwise the result is the `(is_valid, message)` pair. -/
def validate_code (parse : String → Option PyModule) (code : String) :
    Option (Bool × String) :=
  match _validate_jupyter_commands code with
  | none => none
  | some r1 =>
    let pyText := pyPartOf code
    let r2 := astRule checkBuiltinsM parse pyText
    let r3 := astRule checkImportsM parse pyText
    let r4 := _validate_patterns pyText
    let r5 := _validate_package_installation code
    let failures := [r1, r2, r3, r4, r5].foldl addFailure []
    if failures.isEmpty then some (true, "Code validation passed")
    else some (false, joinSep "; " failures)

/-- Parse oracle sufficient for submissions whose plain-Python residue is
empty (`ast.parse("")` succeeds with an empty module). -/
def parseEmptyOnly : String → Option PyModule :=
  fun s => if s = "" then some ([] : List PyStmt) else none


/- ===== codeboxai/models.py : MountPoint validators ===== -/

/-- `restricted_paths` of `MountPoint.validate_host_path`. -/
def restricted_host_paths : List String :=
  ["/etc", "/var", "/bin", "/sbin", "/usr/bin", "/usr/sbin", "/boot", "/dev",
   "/proc", "/sys"]

/-- `restricted_paths` of `MountPoint.validate_container_path`. -/
def restricted_container_paths : List String :=
  ["/etc", "/var/run", "/proc", "/sys"]

/-- Model of `MountPoint.validate_host_path` (models.py lines 15-30).  The
filesystem is abstracted into two oracles: `exists?` models
`Path(path).exists()` and `resolve` models
`str(Path(os.path.abspath(path)).resolve())` (absolutization plus symlink
resolution).  The loop raises on the first restricted prefix of the
resolved path. -/
def validate_host_path (exists? : String → Bool) (resolve : String → String)
    (path : String) : Except String String :=
  if !(exists? path) then Except.error s!"Host path does not exist: {path}"
  else
    let pathObj := resolve path
    match restricted_host_paths.find? (fun r => strStartsWith pathObj r) with
    | some r => Except.error s!"Access to {r} is restricted"
    | none => Except.ok pathObj

/-- Model of `MountPoint.validate_container_path` (models.py lines 32-45):
the raw path string must be absolute and is prefix-checked, un-normalized,
against the container deny-list. -/
def validate_container_path (path : String) : Except String String :=
  if !(strStartsWith path "/") then Except.error "Container path must be absolute"
  else
    match restricted_container_paths.find? (fun r => strStartsWith path r) with
    | some r => Except.error s!"Cannot mount to {r} in container"
    | none => Except.ok path

/-- Lexical path normalization (resolution of `.` and `..` segments) for an
absolute path.  This is the claim-side notion of "resolves after
normalization", stated from the specification to compare against the
source's raw prefix check; the source itself never normalizes container
paths. -/
def normSegsAux : List String → List String → List String
  | acc, [] => acc.reverse
  | acc, "" :: rest => normSegsAux acc rest
  | acc, "." :: rest => normSegsAux acc rest
  | acc, ".." :: rest => normSegsAux (acc.drop 1) rest
  | acc, seg :: rest => normSegsAux (seg :: acc) rest

def normalizePath (p : String) : String :=
  "/" ++ joinSep "/" (normSegsAux [] (strSplitOn p "/"))

/- ===== codeboxai/kernel_manager.py and service.py : state model ===== -/

/-- One entry of `KernelManager.execute_code`'s `outputs` list. -/
inductive KOutput where
  | stream : String → String → KOutput
  | rich : String → List (String × String) → KOutput

/-- The `error` field of a kernel result: the structured protocol error or
the synthetic string error built from a timeout/channel exception. -/
inductive KError where
  | protocol : String → String → List String → KError
  | msg : String → KError

/-- The dictionary returned by `KernelManager.execute_code`. -/
structure KernelResult where
  status : String
  outputs : List KOutput
  error : Option KError

/-- `self.sessions[session_id]` metadata. -/
structure SessionMeta where
  createdAt : String
  lastUsed : String
  dependencies : List String

/-- `self.requests[request_id]` entry. -/
structure StoredRequest where
  sessionId : String
  status : String
  code : String
  createdAt : String

/-- The `error` field of a stored result: the kernel result's error on the
normal path, or `str(e)` of a caught exception. -/
inductive StoredError where
  | kernel : KError → StoredError
  | exc : String → StoredError

/-- `self.results[request_id]` entry (`output`/`files` are absent on the
exception path, hence `Option`). -/
structure StoredResult where
  status : String
  output : Option (List (String × String))
  error : Option StoredError
  files : Option (List String)
  completedAt : String

/-- Python-dict-like association list operations (string keys). -/
def lookupS {α : Type} (m : List (String × α)) (k : String) : Option α :=
  (m.find? (fun p => p.1 = k)).map (·.2)

def eraseS {α : Type} (m : List (String × α)) (k : String) : List (String × α) :=
  m.filter (fun p => p.1 ≠ k)

def insertS {α : Type} (m : List (String × α)) (k : String) (v : α) :
    List (String × α) :=
  (k, v) :: eraseS m k

/-- The combined observable state of `CodeExecutionService` and its
`KernelManager`.  `kernels` models the keys of `KernelManager.kernels`;
`stopCalls` logs every `stop_kernel` invocation and `teardowns` logs the
invocations that found the kernel registered and actually released the
container and channel (the body of `stop_kernel`'s `if`). -/
structure ServiceState where
  requests : List (String × StoredRequest)
  results : List (String × StoredResult)
  sessions : List (String × SessionMeta)
  kernels : List String
  stopCalls : List String
  teardowns : List String

/-- Model of `KernelManager.stop_kernel` (kernel_manager.py lines 154-179):
a no-op when the kernel id is unknown; otherwise every teardown step is
best-effort and the entry is removed. -/
def stop_kernel (st : ServiceState) (kernelId : String) : ServiceState :=
  let st1 := { st with stopCalls := st.stopCalls ++ [kernelId] }
  if st1.kernels.contains kernelId then
    { st1 with
      kernels := st1.kernels.erase kernelId
      teardowns := st1.teardowns ++ [kernelId] }
  else st1

/-- The `except` block of `create_session` (service.py lines 58-64):
delete the session entry if present, stop the kernel, re-raise. -/
def sessionRollback (st : ServiceState) (sessionId : String) : ServiceState :=
  let st1 :=
    if (lookupS st.sessions sessionId).isSome then
      { st with sessions := eraseS st.sessions sessionId }
    else st
  stop_kernel st1 sessionId

/-- Rendering of a kernel result's error field inside the
dependency-install failure message. -/
def kerrorShow : Option KError → String
  | none => "None"
  | some (KError.msg s) => s
  | some (KError.protocol en ev _) => s!"{en}: {ev}"

/-- Model of `CodeExecutionService.create_session` (service.py lines
19-64).  `sessionId` stands for the fresh `uuid4` value; `startOk` is the
outcome of `KernelManager.start_kernel` and `depsExec` the kernel result of
the synthesized dependency-install execution (both are backend oracles).
Returns the post state and either the new session id or the propagated
error message. -/
def create_session (st : ServiceState) (sessionId : String)
    (dependencies : List String) (startOk : Bool) (depsExec : KernelResult)
    (now : String) : ServiceState × Except String String :=
  if !startOk then
    (sessionRollback st sessionId, Except.error "kernel container failed to start")
  else
    let st1 := { st with kernels := st.kernels ++ [sessionId] }
    if dependencies ≠ [] && depsExec.status = "error" then
      (sessionRollback st1 sessionId,
       Except.error s!"Failed to install dependencies: {kerrorShow depsExec.error}")
    else
      ({ st1 with
         sessions := insertS st1.sessions sessionId
           ⟨now, now, dependencies⟩ }, Except.ok sessionId)

/-- Model of `CodeExecutionService.create_execution_request` (service.py
lines 66-83).  `requestId` stands for the fresh `uuid4` value.  The only
check is Python truthiness of `session_id` (the empty string). -/
def create_execution_request (st : ServiceState) (requestId : String)
    (sessionId : String) (code : String) (now : String) :
    ServiceState × Except String String :=
  if sessionId = "" then
    (st, Except.error "session_id must be provided. Create a session first using /sessions.")
  else
    ({ st with
       requests := insertS st.requests requestId
         ⟨sessionId, "initializing", code, now⟩ },
     Except.ok requestId)

/-- The output-formatting loop of `execute_code` (service.py lines
105-115): stream outputs become text entries; rich outputs contribute an
image payload and/or a plain-text entry when those representations are
present. -/
def formatOutputs : List KOutput → List (String × String) × List String
  | [] => ([], [])
  | KOutput.stream _ text :: rest =>
    let (os, fs) := formatOutputs rest
    (("stream", text) :: os, fs)
  | KOutput.rich kind data :: rest =>
    let (os, fs) := formatOutputs rest
    if kind = "execute_result" || kind = "display_data" then
      let fs1 := match lookupS data "image/png" with
        | some png => png :: fs
        | none => fs
      let os1 := match lookupS data "text/plain" with
        | some txt => ("result", txt) :: os
        | none => os
      (os1, fs1)
    else (os, fs)

/-- The body of `execute_code`'s `try` block after the status update
(service.py lines 95-125): drive the kernel exchange, update the session
timestamp (a `KeyError` if the session is gone), format outputs, build the
stored result.  Exceptions are `Except.error` values carrying `str(e)`. -/
def executeCodeInner (sessions : List (String × SessionMeta))
    (sessionId : String) (kernelExec : Except String KernelResult)
    (now : String) :
    Except String (List (String × SessionMeta) × StoredResult) := do
  let result ← kernelExec
  match lookupS sessions sessionId with
  | none => Except.error s!"KeyError: {sessionId}"
  | some meta =>
    let sessions1 := insertS sessions sessionId { meta with lastUsed := now }
    let (formatted, files) := formatOutputs result.outputs
    Except.ok (sessions1,
      { status := result.status
        output := some formatted
        error := result.error.map StoredError.kernel
        files := some files
        completedAt := now })

/-- Model of `CodeExecutionService.execute_code` (service.py lines
85-133).  An unknown request id returns immediately; otherwise the request
is marked `running`, and every exception inside the `try` block is caught
and stored as a `status = "error"` result carrying the exception text. -/
def execute_code (st : ServiceState) (requestId : String)
    (kernelExec : Except String KernelResult) (now : String) : ServiceState :=
  match lookupS st.requests requestId with
  | none => st
  | some req =>
    let st1 := { st with
      requests := insertS st.requests requestId { req with status := "running" } }
    match executeCodeInner st1.sessions req.sessionId kernelExec now with
    | Except.ok (sessions1, res) =>
      { st1 with
        sessions := sessions1
        results := insertS st1.results requestId res }
    | Except.error e =>
      { st1 with
        results := insertS st1.results requestId
          { status := "error", output := none, error := some (StoredError.exc e),
            files := none, completedAt := now } }

/-- Model of `CodeExecutionService.cleanup_session` (service.py lines
135-139): stop the kernel and delete the entry only when the session id is
registered. -/
def cleanup_session (st : ServiceState) (sessionId : String) : ServiceState :=
  if (lookupS st.sessions sessionId).isSome then
    let st1 := stop_kernel st sessionId
    { st1 with sessions := eraseS st1.sessions sessionId }
  else st

/-- The empty service state (a freshly constructed service). -/
def initState : ServiceState := ⟨[], [], [], [], [], []⟩

/- ===== auxiliary definitions used by the claim theorems ===== -/

def isAccepted {ε α : Type} : Except ε α → Bool
  | Except.ok _ => true
  | Except.error _ => false

/-- The dotted module names referenced by an import statement (the claim's
notion of "code containing an import"). -/
def importsOf : PyStmt → List String
  | PyStmt.imp names => names
  | PyStmt.impFrom (some mo) => [mo]
  | _ => []

/-- Parse oracle for the C5 counterexample submission. -/
def parseC5 : String → Option PyModule :=
  fun s => if s = "import sys" then some [PyStmt.imp ["sys"]] else none

/-- Parse oracle for the C5 witness submission. -/
def parseC5w : String → Option PyModule :=
  fun s => if s = "import sys" then some [PyStmt.imp ["sys"]] else none

/-- The C10 witness module: `f = eval` followed by `f(s)` — it references
the forbidden builtin `eval` without calling it by that name. -/
def c10Module : PyModule :=
  [PyStmt.assign "f" (PyExpr.name "eval"),
   PyStmt.exprStmt (PyExpr.call (PyExpr.name "f") [PyExpr.name "s"])]

/-- Parse oracle for the C10 witness submission. -/
def parseC10 : String → Option PyModule :=
  fun s => if s = "f = eval\nf(s)" then some c10Module else none

/- ===== helper lemmas about the association-list operations ===== -/

theorem lookupS_insertS_self {α : Type} (m : List (String × α)) (k : String) (v : α) :
    lookupS (insertS m k v) k = some v := by
  simp [lookupS, insertS, List.find?]

theorem lookupS_eraseS_self {α : Type} (m : List (String × α)) (k : String) :
    lookupS (eraseS m k) k = none := by
  have h : (eraseS m k).find? (fun p => p.1 = k) = none := by
    rw [List.find?_eq_none]
    intro p hp
    simp only [eraseS, List.mem_filter] at hp
    simpa using hp.2
  simp [lookupS, h]

theorem eraseS_insertS_self {α : Type} (m : List (String × α)) (k : String) (v : α) :
    eraseS (insertS m k v) k = eraseS m k := by
  simp only [insertS, eraseS, List.filter]
  simp [List.filter_filter]

/- ===== Claim C2 ===== -/

/-- C2 counterexample: with an empty session registry, an execution request
naming the unknown session id "ghost-session" is accepted by
`create_execution_request` instead of raising — the claimed liveness check
does not exist. -/
theorem c2_counterexample :
    lookupS initState.sessions "ghost-session" = none ∧
    (create_execution_request initState "req-1" "ghost-session" "print(1)" "t0").2 =
      Except.ok "req-1" :=
  ⟨rfl, rfl⟩

/-- C2 (amended): `create_execution_request` raises the "create a session
first" error exactly when `request.session_id` is the empty (falsy) string;
any non-empty id — live or not — is accepted, the request is stored in
state `initializing`, and the session registry is never touched (so no
implicit session creation). -/
theorem c2_no_liveness_check (st : ServiceState) (requestId sessionId code now : String) :
    (sessionId = "" →
      create_execution_request st requestId sessionId code now =
        (st, Except.error "session_id must be provided. Create a session first using /sessions.")) ∧
    (sessionId ≠ "" →
      (create_execution_request st requestId sessionId code now).2 = Except.ok requestId ∧
      (create_execution_request st requestId sessionId code now).1.sessions = st.sessions ∧
      lookupS (create_execution_request st requestId sessionId code now).1.requests requestId =
        some ⟨sessionId, "initializing", code, now⟩) := by
  constructor
  · intro h
    simp [create_execution_request, h]
  · intro h
    refine ⟨?_, ?_, ?_⟩ <;>
      simp [create_execution_request, h, lookupS_insertS_self]

/-- C2 witness: instantiation of the amended theorem at a concrete
non-empty (and non-registered) session id. -/
theorem c2_no_liveness_check_witness :
    ("sid-1" : String) ≠ "" ∧
    (create_execution_request initState "req-1" "sid-1" "x = 1" "t0").2 =
      Except.ok "req-1" := by
  refine ⟨by decide, ?_⟩
  exact ((c2_no_liveness_check initState "req-1" "sid-1" "x = 1" "t0").2 (by decide)).1

/- ===== Claim C4 ===== -/

/-- C4: the five concrete package-validation behaviors of the claim, run
through `validate_code` on the Jupyter shell-command form the validator's
install regex recognizes: `pillow>=9.0.0` accepted, `pillow==8.0.0`
rejected, `pillow==9.0.0` accepted, `crypto` rejected, and the upper-case
`PILLOW>=9.0.0` accepted. -/
theorem c4_package_validation_examples :
    validate_code parseEmptyOnly "!pip install pillow>=9.0.0" =
      some (true, "Code validation passed") ∧
    (validate_code parseEmptyOnly "!pip install pillow==8.0.0").map Prod.fst =
      some false ∧
    validate_code parseEmptyOnly "!pip install pillow==9.0.0" =
      some (true, "Code validation passed") ∧
    (validate_code parseEmptyOnly "!pip install crypto").map Prod.fst =
      some false ∧
    validate_code parseEmptyOnly "!pip install PILLOW>=9.0.0" =
      some (true, "Code validation passed") := by
  refine ⟨by decide, by decide, by decide, by decide, by decide⟩

/- ===== Claim C9 ===== -/

/-- C9: a submission consisting solely of `!` is classified as a shell
line, the jupyter-commands sub-rule indexes `split()[0]` of an empty token
list (an uncaught `IndexError`, modelled as `none`), and `validate_code`
therefore raises instead of returning an `(is_valid, message)` pair. -/
theorem c9_bare_bang_raises :
    _validate_jupyter_commands "!" = none ∧
    validate_code parseEmptyOnly "!" = none := by
  refine ⟨by decide, by decide⟩

/- ===== Claim C1 ===== -/

/-- A find?-on-prefix scan returns `none` exactly when no list entry is a
prefix — the bridge between the source's first-match loop and an
`all`-quantified acceptance condition. -/
theorem find?_none_iff_all_not (l : List String) (q : String → Bool) :
    l.find? q = none ↔ l.all (fun r => !q r) = true := by
  rw [List.find?_eq_none, List.all_eq_true]
  constructor
  · intro h r hr
    simp [h r hr]
  · intro h r hr
    have := h r hr
    simp at this
    simp [this]

/-- C1 counterexample: the container path `/srv/../etc` normalizes to
`/etc`, which is on the claimed deny-list, yet `validate_container_path`
accepts it verbatim — the source prefix-checks the raw string and never
normalizes, so the "resolves (after normalization)" guarantee fails on the
container side. -/
theorem c1_counterexample :
    validate_container_path "/srv/../etc" = Except.ok "/srv/../etc" ∧
    normalizePath "/srv/../etc" = "/etc" ∧
    restricted_container_paths.contains "/etc" = true :=
  ⟨rfl, rfl, rfl⟩

/-- C1 (amended): `validate_host_path` accepts exactly when the path exists
and its resolved form has no prefix among the ten host restricted
directories (the claimed eight plus `/usr/bin` and `/usr/sbin`);
`validate_container_path` accepts exactly when the raw, un-normalized path
is absolute and has no prefix among `/etc`, `/var/run`, `/proc`, `/sys`
only — rejections are hard errors, and a non-existing host path is always
rejected. -/
theorem c1_mount_deny_lists (exists? : String → Bool) (resolve : String → String)
    (p : String) :
    (isAccepted (validate_host_path exists? resolve p) =
      (exists? p &&
        restricted_host_paths.all (fun r => !strStartsWith (resolve p) r))) ∧
    (isAccepted (validate_container_path p) =
      (strStartsWith p "/" &&
        restricted_container_paths.all (fun r => !strStartsWith p r))) := by
  constructor
  · unfold validate_host_path
    cases he : exists? p with
    | false => simp [isAccepted]
    | true =>
      simp only [Bool.not_true, Bool.false_eq_true, if_false, Bool.true_and]
      cases hf : restricted_host_paths.find? (fun r => strStartsWith (resolve p) r) with
      | none =>
        simp [isAccepted, (find?_none_iff_all_not _ _).mp hf]
      | some r =>
        have hmem := List.mem_of_find?_eq_some hf
        have hpred := List.find?_some hf
        have hall : restricted_host_paths.all
            (fun r => !strStartsWith (resolve p) r) = false := by
          rw [List.all_eq_false]
          exact ⟨r, hmem, by simp [hpred]⟩
        simp [isAccepted, hall]
  · unfold validate_container_path
    cases ha : strStartsWith p "/" with
    | false => simp [isAccepted]
    | true =>
      simp only [Bool.not_true, Bool.false_eq_true, if_false, Bool.true_and]
      cases hf : restricted_container_paths.find? (fun r => strStartsWith p r) with
      | none =>
        simp [isAccepted, (find?_none_iff_all_not _ _).mp hf]
      | some r =>
        have hmem := List.mem_of_find?_eq_some hf
        have hpred := List.find?_some hf
        have hall : restricted_container_paths.all
            (fun r => !strStartsWith p r) = false := by
          rw [List.all_eq_false]
          exact ⟨r, hmem, by simp [hpred]⟩
        simp [isAccepted, hall]

/- ===== Claim C3 ===== -/

/-- C3 counterexample: the range `>=1.0.0` admits version 1.0.0, strictly
below pillow's registered minimum 9.0.0, so the claim demands rejection —
yet validation accepts the line, because the probe version the code tests
(`9.0`, the minimum's major.minor) equals the minimum itself under
zero-padding and the strictly-below condition is never met. -/
theorem c3_counterexample :
    parseSpecSet ">=1.0.0" = some [⟨">=", [1, 0, 0]⟩] ∧
    specSetContains [⟨">=", [1, 0, 0]⟩] [1, 0, 0] = true ∧
    verLt [1, 0, 0] [9, 0, 0] = true ∧
    lookupMinVersion "pillow" = some ("9.0.0", [9, 0, 0]) ∧
    validate_code parseEmptyOnly "!pip install pillow>=1.0.0" =
      some (true, "Code validation passed") := by
  refine ⟨by decide, by decide, by decide, by decide, by decide⟩

/-- C3 (amended): for a pip/conda package token with a non-exact (range)
version specifier and a registered minimum, the per-package check rejects
if and only if the probe version built from the minimum's major and minor
components is strictly below the minimum itself and the requested range
admits that probe — not whenever the range could admit some version below
the minimum. -/
theorem c3_range_check_is_probe_based (token name vs minStr : String)
    (minVer : List Nat) (requested : List Specifier)
    (hsplit : splitSpec token = (name, some vs))
    (hblocked : blocked_packages.contains (strLower name) = false)
    (hmin : lookupMinVersion name = some (minStr, minVer))
    (hexact : strContains vs "==" = false)
    (hparse : parseSpecSet vs = some requested) :
    (checkPackageToken token).1 =
      !(verLt [minVer.headD 0, (minVer.drop 1).headD 0] minVer &&
        specSetContains requested [minVer.headD 0, (minVer.drop 1).headD 0]) := by
  unfold checkPackageToken
  rw [hsplit]
  simp only [hblocked, Bool.false_eq_true, if_false, hmin, hexact, hparse]
  cases h : (verLt [minVer.headD 0, (minVer.drop 1).headD 0] minVer &&
      specSetContains requested [minVer.headD 0, (minVer.drop 1).headD 0]) <;>
    simp [h]

/-- C3 witness: instantiating the amended characterization at
`numpy>=1.0` (probe `1.22` is strictly below the minimum `1.22.2` and the
range admits it), which the checker therefore rejects. -/
theorem c3_range_check_is_probe_based_witness :
    (checkPackageToken "numpy>=1.0").1 =
      !(verLt [1, 22] [1, 22, 2] && specSetContains [⟨">=", [1, 0]⟩] [1, 22]) :=
  c3_range_check_is_probe_based "numpy>=1.0" "numpy" ">=1.0" "1.22.2"
    [1, 22, 2] [⟨">=", [1, 0]⟩] (by decide) (by decide) (by decide) (by decide)
    (by decide)

/- ===== Claim C6 ===== -/

/-- C6: when the dependency-install execution reports terminal status
"error" during `create_session` (after a successful kernel start), session
creation fails with the install error, the session registry holds no entry
for the fresh id, and `stop_kernel` both is invoked and performs the actual
teardown exactly once for that id. -/
theorem c6_deps_failure_rolls_back (st : ServiceState) (sessionId : String)
    (dependencies : List String) (depsExec : KernelResult) (now : String)
    (hdeps : dependencies ≠ [])
    (herr : depsExec.status = "error")
    (hfresh : lookupS st.sessions sessionId = none) :
    (create_session st sessionId dependencies true depsExec now).2 =
      Except.error s!"Failed to install dependencies: {kerrorShow depsExec.error}" ∧
    lookupS (create_session st sessionId dependencies true depsExec now).1.sessions
      sessionId = none ∧
    (create_session st sessionId dependencies true depsExec now).1.stopCalls =
      st.stopCalls ++ [sessionId] ∧
    (create_session st sessionId dependencies true depsExec now).1.teardowns =
      st.teardowns ++ [sessionId] := by
  have hc : ((st.kernels ++ [sessionId]).contains sessionId) = true := by
    simp
  unfold create_session sessionRollback stop_kernel
  simp [hdeps, herr, hfresh, hc]

/-- C6 witness: a concrete failing install (`status = "error"`) on a fresh
service state. -/
theorem c6_deps_failure_rolls_back_witness :
    (create_session initState "sid-1" ["badpackage"] true
        ⟨"error", [], some (KError.msg "fail")⟩ "t0").2 =
      Except.error "Failed to install dependencies: fail" ∧
    lookupS (create_session initState "sid-1" ["badpackage"] true
        ⟨"error", [], some (KError.msg "fail")⟩ "t0").1.sessions "sid-1" = none ∧
    (create_session initState "sid-1" ["badpackage"] true
        ⟨"error", [], some (KError.msg "fail")⟩ "t0").1.teardowns = ["sid-1"] := by
  have h := c6_deps_failure_rolls_back initState "sid-1" ["badpackage"]
    ⟨"error", [], some (KError.msg "fail")⟩ "t0" (by decide) rfl rfl
  exact ⟨h.1, h.2.1, h.2.2.2⟩

/- ===== Claim C8 ===== -/

/-- C8: after a successful `create_session`, one `cleanup_session` removes
the registry entry and performs exactly one teardown of the isolation
handle; a second `cleanup_session` on the same id is a state-preserving
no-op, as is `cleanup_session` on an id that was never registered. -/
theorem c8_cleanup_idempotent (st : ServiceState) (sessionId : String)
    (dependencies : List String) (depsExec : KernelResult) (now : String)
    (st1 st2 : ServiceState)
    (hfresh : lookupS st.sessions sessionId = none)
    (hok : depsExec.status ≠ "error")
    (hst1 : st1 = (create_session st sessionId dependencies true depsExec now).1)
    (hst2 : st2 = cleanup_session st1 sessionId) :
    (create_session st sessionId dependencies true depsExec now).2 =
      Except.ok sessionId ∧
    lookupS st2.sessions sessionId = none ∧
    st2.teardowns = st.teardowns ++ [sessionId] ∧
    cleanup_session st2 sessionId = st2 ∧
    cleanup_session st sessionId = st := by
  have hc : ((st.kernels ++ [sessionId]).contains sessionId) = true := by simp
  have hres : create_session st sessionId dependencies true depsExec now =
      ({ st with
         kernels := st.kernels ++ [sessionId]
         sessions := insertS st.sessions sessionId ⟨now, now, dependencies⟩ },
       Except.ok sessionId) := by
    unfold create_session
    simp [hok]
  subst hst2 hst1
  rw [hres]
  refine ⟨rfl, ?_, ?_, ?_, ?_⟩
  · unfold cleanup_session stop_kernel
    simp [lookupS_insertS_self, hc, eraseS_insertS_self, lookupS_eraseS_self]
  · unfold cleanup_session stop_kernel
    simp [lookupS_insertS_self, hc, eraseS_insertS_self]
  · unfold cleanup_session stop_kernel
    simp [lookupS_insertS_self, hc, eraseS_insertS_self, lookupS_eraseS_self]
  · unfold cleanup_session
    simp [hfresh]

/-- C8 witness: the create-then-cleanup round trip on a fresh service
state, with no dependencies to install. -/
theorem c8_cleanup_idempotent_witness :
    (create_session initState "sid-1" [] true ⟨"completed", [], none⟩ "t0").2 =
      Except.ok "sid-1" ∧
    lookupS (cleanup_session
        (create_session initState "sid-1" [] true ⟨"completed", [], none⟩ "t0").1
        "sid-1").sessions "sid-1" = none ∧
    (cleanup_session
        (create_session initState "sid-1" [] true ⟨"completed", [], none⟩ "t0").1
        "sid-1").teardowns = ["sid-1"] ∧
    cleanup_session initState "sid-1" = initState := by
  have h := c8_cleanup_idempotent initState "sid-1" [] ⟨"completed", [], none⟩ "t0"
    (create_session initState "sid-1" [] true ⟨"completed", [], none⟩ "t0").1
    (cleanup_session
      (create_session initState "sid-1" [] true ⟨"completed", [], none⟩ "t0").1
      "sid-1")
    rfl (by decide) rfl rfl
  exact ⟨h.1, h.2.1, h.2.2.1, h.2.2.2.2⟩

/- ===== Claim C7 ===== -/

/-- C7: `execute_code` is total — an unknown request id returns the state
unchanged, and for a known request a result entry is always stored; if
anything in the try-block sequence raised (kernel exchange, session
timestamp update, output formatting — all summarized by
`executeCodeInner`), the stored result has status `"error"` and carries the
exception's message, so no exception ever reaches the caller. -/
theorem c7_execute_code_never_raises (st : ServiceState) (requestId : String)
    (kernelExec : Except String KernelResult) (now : String) :
    (lookupS st.requests requestId = none →
      execute_code st requestId kernelExec now = st) ∧
    (∀ req, lookupS st.requests requestId = some req →
      ∃ res, lookupS (execute_code st requestId kernelExec now).results requestId =
          some res ∧
        (∀ e, executeCodeInner st.sessions req.sessionId kernelExec now =
            Except.error e →
          res.status = "error" ∧ res.error = some (StoredError.exc e)) ∧
        (∀ sessions1 okRes,
          executeCodeInner st.sessions req.sessionId kernelExec now =
            Except.ok (sessions1, okRes) → res = okRes)) := by
  constructor
  · intro h
    unfold execute_code
    rw [h]
  · intro req hreq
    unfold execute_code
    rw [hreq]
    cases hi : executeCodeInner st.sessions req.sessionId kernelExec now with
    | ok pr =>
      refine ⟨pr.2, ?_, ?_, ?_⟩
      · simp only
        rw [show executeCodeInner st.sessions req.sessionId kernelExec now =
              Except.ok (pr.1, pr.2) from by rw [hi]]
        exact lookupS_insertS_self _ _ _
      · intro e he
        exact absurd he (by simp)
      · intro sessions1 okRes hok
        injection hok with h1
        rw [h1]
    | error e0 =>
      refine ⟨⟨"error", none, some (StoredError.exc e0), none, now⟩, ?_, ?_, ?_⟩
      · simp only
        rw [hi]
        exact lookupS_insertS_self _ _ _
      · intro e he
        injection he with h1
        rw [h1]
        exact ⟨rfl, rfl⟩
      · intro sessions1 okRes hok
        exact absurd hok (by simp)

/-- C7 witness: a concrete state holding one request whose kernel exchange
raises; the stored result is the error record carrying the message. -/
theorem c7_execute_code_never_raises_witness :
    lookupS ({ initState with
        requests := [("req-1", ⟨"sid-1", "initializing", "x = 1", "t0"⟩)] } :
          ServiceState).requests "req-1" =
      some ⟨"sid-1", "initializing", "x = 1", "t0"⟩ ∧
    ∃ res,
      lookupS (execute_code
          { initState with
            requests := [("req-1", ⟨"sid-1", "initializing", "x = 1", "t0"⟩)] }
          "req-1" (Except.error "boom") "t1").results "req-1" = some res ∧
      res.status = "error" ∧ res.error = some (StoredError.exc "boom") := by
  refine ⟨rfl, ?_⟩
  obtain ⟨res, h1, h2, _⟩ :=
    (c7_execute_code_never_raises
      { initState with
        requests := [("req-1", ⟨"sid-1", "initializing", "x = 1", "t0"⟩)] }
      "req-1" (Except.error "boom") "t1").2
      ⟨"sid-1", "initializing", "x = 1", "t0"⟩ rfl
  exact ⟨res, h1, h2 "boom" rfl⟩

/- ===== helper lemmas for the failure-collection fold and joining ===== -/

theorem mem_addFailure (acc : List String) (x : String) (r : Bool × Option String)
    (hx : x ∈ acc) : x ∈ addFailure acc r := by
  rcases r with ⟨b, mo⟩
  cases b with
  | true => simpa [addFailure] using hx
  | false =>
    cases mo with
    | none => simpa [addFailure] using hx
    | some m =>
      by_cases hm : m = ""
      · simpa [addFailure, hm] using hx
      · simp only [addFailure, hm, if_false, List.mem_append]
        exact Or.inl hx

theorem mem_foldl_addFailure_of_mem (rs : List (Bool × Option String))
    (acc : List String) (x : String) (hx : x ∈ acc) :
    x ∈ rs.foldl addFailure acc := by
  induction rs generalizing acc with
  | nil => exact hx
  | cons r rest ih => exact ih _ (mem_addFailure _ _ _ hx)

theorem mem_foldl_addFailure (rs : List (Bool × Option String))
    (acc : List String) (m : String) (hm : m ≠ "")
    (hr : (false, some m) ∈ rs) : m ∈ rs.foldl addFailure acc := by
  induction rs generalizing acc with
  | nil => cases hr
  | cons r rest ih =>
    rcases List.mem_cons.mp hr with h | h
    · rw [List.foldl_cons, ← h]
      apply mem_foldl_addFailure_of_mem
      simp [addFailure, hm]
    · rw [List.foldl_cons]
      exact ih _ h

theorem infix_joinSep (sep : String) (L : List String) (x : String)
    (hx : x ∈ L) : x.data <:+: (joinSep sep L).data := by
  induction L with
  | nil => cases hx
  | cons y ys ih =>
    rcases List.mem_cons.mp hx with h | h
    · subst h
      cases ys with
      | nil => exact List.infix_rfl
      | cons z zs =>
        refine ⟨[], (sep ++ joinSep sep (z :: zs)).data, ?_⟩
        simp [joinSep, String.data_append]
    · cases ys with
      | nil => cases h
      | cons z zs =>
        obtain ⟨s, t, hst⟩ := ih h
        refine ⟨y.data ++ sep.data ++ s, t, ?_⟩
        simp only [joinSep, String.data_append, List.append_assoc]
        rw [← List.append_assoc s, hst]

/- ===== helper lemmas about the imports rule ===== -/

theorem stmtForbiddenImport_root (s : PyStmt) (n : String)
    (h : stmtForbiddenImport s = some n) :
    forbidden_modules.contains (rootMod n) = true := by
  cases s with
  | imp names =>
    simp only [stmtForbiddenImport] at h
    obtain ⟨a, _, hfa⟩ := List.exists_of_findSome?_eq_some h
    by_cases hc : forbidden_modules.contains (rootMod a) = true
    · rw [if_pos hc] at hfa
      injection hfa with h1
      rw [← h1]
      exact hc
    · rw [if_neg hc] at hfa
      cases hfa
  | impFrom mo =>
    cases mo with
    | none => simp [stmtForbiddenImport] at h
    | some mo' =>
      simp only [stmtForbiddenImport] at h
      by_cases hc : forbidden_modules.contains (rootMod mo') = true
      · rw [if_pos hc] at h
        injection h with h1
        rw [← h1]
        exact hc
      · rw [if_neg hc] at h
        cases h
  | assign _ _ => simp [stmtForbiddenImport] at h
  | exprStmt _ => simp [stmtForbiddenImport] at h

theorem moduleForbiddenImport_root (m : PyModule) (nm : String)
    (h : moduleForbiddenImport m = some nm) :
    forbidden_modules.contains (rootMod nm) = true := by
  obtain ⟨s, _, hs⟩ := List.exists_of_findSome?_eq_some h
  exact stmtForbiddenImport_root s nm hs

theorem moduleForbiddenImport_isSome (m : PyModule) (s : PyStmt) (n : String)
    (hs : s ∈ m) (hn : n ∈ importsOf s)
    (hf : forbidden_modules.contains (rootMod n) = true) :
    ∃ nm, moduleForbiddenImport m = some nm := by
  have hstmt : stmtForbiddenImport s ≠ none := by
    cases s with
    | imp names =>
      simp only [importsOf] at hn
      intro hnone
      simp only [stmtForbiddenImport, List.findSome?_eq_none_iff] at hnone
      have h2 := hnone n hn
      rw [if_pos hf] at h2
      cases h2
    | impFrom mo =>
      cases mo with
      | none => simp [importsOf] at hn
      | some mo' =>
        simp only [importsOf, List.mem_singleton] at hn
        subst hn
        intro hnone
        simp only [stmtForbiddenImport] at hnone
        rw [if_pos hf] at hnone
        cases hnone
    | assign _ _ => simp [importsOf] at hn
    | exprStmt _ => simp [importsOf] at hn
  cases hmod : moduleForbiddenImport m with
  | some nm => exact ⟨nm, rfl⟩
  | none =>
    simp only [moduleForbiddenImport, List.findSome?_eq_none_iff] at hmod
    exact absurd (hmod s hs) hstmt

theorem rootMod_prefix (n : String) : (rootMod n).data <+: n.data := by
  simpa [rootMod] using List.takeWhile_prefix (l := n.data)
    (p := fun c => c ≠ '.')

/- ===== Claim C5 ===== -/

/-- C5 counterexample: the submission `import sys\n!` contains a
denylisted import, but one of its surrounding shell lines is a bare `!`;
`validate_code` then raises the jupyter rule's `IndexError` (modelled as
`none`) instead of rejecting with a reason naming the module. -/
theorem c5_counterexample :
    parseC5 (pyPartOf "import sys\n!") = some [PyStmt.imp ["sys"]] ∧
    forbidden_modules.contains (rootMod "sys") = true ∧
    validate_code parseC5 "import sys\n!" = none :=
  ⟨rfl, by decide, rfl⟩

/-- C5 (amended): for every submission whose plain-Python part parses to a
module containing an import whose root module is denylisted, and whose
shell lines do not trip the jupyter rule's `IndexError` (every `!` line
has a command token — a bare `!` instead raises), `validate_code` rejects
and its reason string contains the root module name of a denylisted
import. -/
theorem c5_forbidden_import_rejected (parse : String → Option PyModule)
    (code : String) (m : PyModule) (r1 : Bool × Option String)
    (s : PyStmt) (n : String)
    (hj : _validate_jupyter_commands code = some r1)
    (hparse : parse (pyPartOf code) = some m)
    (hs : s ∈ m) (hn : n ∈ importsOf s)
    (hf : forbidden_modules.contains (rootMod n) = true) :
    ∃ msg, validate_code parse code = some (false, msg) ∧
      ∃ nm, forbidden_modules.contains (rootMod nm) = true ∧
        (rootMod nm).data <:+: msg.data := by
  obtain ⟨nm, hnm⟩ := moduleForbiddenImport_isSome m s n hs hn hf
  have hroot := moduleForbiddenImport_root m nm hnm
  have hmsg : checkImportsM m = (false, some ("Forbidden import: " ++ nm)) := by
    simp [checkImportsM, hnm]
  have hne : ("Forbidden import: " ++ nm) ≠ "" := by
    intro hcontra
    have := congrArg String.data hcontra
    simp [String.data_append] at this
  set rs : List (Bool × Option String) :=
    [r1, checkBuiltinsM m, checkImportsM m,
     _validate_patterns (pyPartOf code),
     _validate_package_installation code] with hrs
  have hmem : ("Forbidden import: " ++ nm) ∈ rs.foldl addFailure [] := by
    apply mem_foldl_addFailure _ _ _ hne
    rw [hrs, hmsg]
    simp
  have hE : (rs.foldl addFailure []).isEmpty = false := by
    cases hE' : (rs.foldl addFailure []).isEmpty with
    | false => rfl
    | true =>
      rw [List.isEmpty_iff] at hE'
      rw [hE'] at hmem
      cases hmem
  refine ⟨joinSep "; " (rs.foldl addFailure []), ?_, nm, hroot, ?_⟩
  · unfold validate_code
    rw [hj]
    simp only [astRule, hparse]
    rw [← hrs, hE]
    rfl
  · have hinfix1 : (rootMod nm).data <:+: ("Forbidden import: " ++ nm).data := by
      obtain ⟨t, ht⟩ := rootMod_prefix nm
      refine ⟨("Forbidden import: " : String).data, t, ?_⟩
      rw [String.data_append, List.append_assoc, ht]
    exact hinfix1.trans (infix_joinSep _ _ _ hmem)

/-- C5 witness: the amended theorem applied to `!pip install x` followed by
`import sys`. -/
theorem c5_forbidden_import_rejected_witness :
    ∃ msg, validate_code parseC5w "!pip install x\nimport sys" = some (false, msg) ∧
      ∃ nm, forbidden_modules.contains (rootMod nm) = true ∧
        (rootMod nm).data <:+: msg.data := by
  refine c5_forbidden_import_rejected parseC5w "!pip install x\nimport sys"
    [PyStmt.imp ["sys"]] (true, none) (PyStmt.imp ["sys"]) "sys"
    rfl rfl ?_ ?_ (by decide)
  · exact List.mem_singleton.mpr rfl
  · exact List.mem_singleton.mpr rfl

/- ===== Claim C10 ===== -/

/-- C10: the dangerous-builtin rule flags only direct call expressions
whose function position is a bare name in the forbidden set
(`moduleForbiddenCall`); for any submission whose parsed plain-Python part
contains no such direct call — it may still reference a forbidden builtin,
e.g. `f = eval` then `f(s)` — `validate_code` accepts when every other
rule also passes. -/
theorem c10_builtins_rule_only_direct_calls (parse : String → Option PyModule)
    (code : String) (m : PyModule)
    (hj : _validate_jupyter_commands code = some (true, none))
    (hparse : parse (pyPartOf code) = some m)
    (hnb : moduleForbiddenCall m = none)
    (hni : moduleForbiddenImport m = none)
    (hnp : hasDunderPattern (pyPartOf code) = false)
    (hpkg : _validate_package_installation code = (true, none)) :
    validate_code parse code = some (true, "Code validation passed") := by
  have hb : checkBuiltinsM m = (true, none) := by simp [checkBuiltinsM, hnb]
  have hi : checkImportsM m = (true, none) := by simp [checkImportsM, hni]
  have hp : _validate_patterns (pyPartOf code) = (true, none) := by
    simp [_validate_patterns, hnp]
  unfold validate_code
  rw [hj]
  simp only [astRule, hparse, hb, hi, hp, hpkg]
  rfl

/-- C10 witness: the theorem applied to the concrete submission
`f = eval` / `f(s)`, which validate_code accepts. -/
theorem c10_builtins_rule_only_direct_calls_witness :
    moduleForbiddenCall c10Module = none ∧
    validate_code parseC10 "f = eval\nf(s)" =
      some (true, "Code validation passed") := by
  refine ⟨rfl, ?_⟩
  exact c10_builtins_rule_only_direct_calls parseC10 "f = eval\nf(s)" c10Module
    rfl rfl rfl rfl (by decide) (by decide)
